import Mathlib

/-!
# Verification of the Solana data-storage client codecs and instruction assembly

Shallow embedding of `src/testCodecs/getCodecs.mts` (payload encoders and the
account decoder) and the instruction-assembly functions (`getIxs.mts` part of
the same source file): Create, the three Edit variants, and Close.

Modelling conventions:
* Bytes are natural numbers; a well-formed byte is `< 256`.  A JavaScript
  `Uint8Array` is modelled as a `List Nat` whose entries are `< 256`.
* Strings (labels, and the UTF-8 codec) are modelled by their UTF-8 byte
  sequences, so `getUtf8Encoder` is the identity on bytes.  The library's
  `getUtf8Decoder` applies `removeNullCharacters`, which removes every
  `\u0000` character from the decoded string; at the byte level this removes
  every `0` byte.
* A base58 `Address` value is an opaque string, as in the source.
* Fallible encoding/decoding (the library throws `SolanaError`s, e.g. for
  out-of-range numbers, wrong array item counts, or byte arrays that are too
  short) is modelled with `Option`: `none` is a thrown error.
-/

namespace DataStorage

/-- Byte sequences, the contents of `Uint8Array` / `ReadonlyUint8Array`. -/
abbrev Bytes := List Nat

/-- Little-endian interpretation of a byte sequence as a natural number. -/
def leToNat : Bytes → Nat
  | [] => 0
  | b :: rest => b + 256 * leToNat rest

/-- Little-endian encoding of `n` into exactly `k` bytes (drops bits beyond
`256 ^ k`, as a fixed-width number encoder does). -/
def natToLE : Nat → Nat → Bytes
  | 0, _ => []
  | k + 1, n => n % 256 :: natToLE k (n / 256)

/-! ## Encoder combinators from `@solana/codecs` used by the source -/

/-- `getU8Encoder()`: one byte, throwing when the value is outside `0..255`. -/
def getU8Encoder (n : Nat) : Option Bytes :=
  if n < 256 then some [n] else none

/-- `getUtf8Encoder()`: with strings modelled as their UTF-8 bytes, encoding is
the identity and never fails. -/
def getUtf8Encoder (s : Bytes) : Option Bytes :=
  some s

/-- `fixEncoderSize(encoder, size)`: run the inner encoder, then truncate or
right-pad the result with zero bytes to exactly `size` bytes. -/
def fixEncoderSize {α : Type} (enc : α → Option Bytes) (size : Nat) (a : α) :
    Option Bytes :=
  (enc a).map fun bs => bs.take size ++ List.replicate (size - bs.length) 0

/-- Encoding a list of items with `getU8Encoder`, concatenating the results;
fails as soon as one item is out of range. -/
def encodeU8List : List Nat → Option Bytes
  | [] => some []
  | b :: rest => do
    let x ← getU8Encoder b
    let xs ← encodeU8List rest
    pure (x ++ xs)

/-- `getArrayEncoder(getU8Encoder(), { size })` with a numeric `size`: no
length prefix; throws when the item count differs from `size`, else encodes
each item as a `u8`. -/
def getArrayEncoder (size : Nat) (items : List Nat) : Option Bytes :=
  if items.length = size then encodeU8List items else none

/-! ## Instruction-data encoders (`getCodecs.mts`) -/

/-- Caller-visible value for the Create instruction-data encoder.  The caller
may put anything in `discriminator`; `transformEncoder` overwrites it. -/
structure CreateInstructionData where
  discriminator : Nat
  label : Bytes
  data : List Nat

/-- Caller-visible value for the Edit instruction-data encoder. -/
structure EditInstructionData where
  discriminator : Nat
  newData : List Nat

/-- Caller-visible value for the Close instruction-data encoder.  The source
passes `null`, which the transform turns into `{ discriminator: 2 }`; the
caller-supplied discriminator (if any) is irrelevant. -/
structure CloseInstructionData where
  discriminator : Nat

/-- The struct encoder built inside `getCreateDataStorageAccountInstructionDataEncoder`:
fields `discriminator` (u8), `label` (utf8 fixed to 30 bytes), `data`
(u8 array of `data_size` items). -/
def ix_create_new_dsa (data_size : Nat) (value : CreateInstructionData) :
    Option Bytes := do
  let d ← getU8Encoder value.discriminator
  let l ← fixEncoderSize getUtf8Encoder 30 value.label
  let xs ← getArrayEncoder data_size value.data
  pure (d ++ (l ++ xs))

/-- `getCreateDataStorageAccountInstructionDataEncoder(data_size)`:
the struct encoder transformed so the encoded `discriminator` is always `0`. -/
def getCreateDataStorageAccountInstructionDataEncoder (data_size : Nat)
    (value : CreateInstructionData) : Option Bytes :=
  ix_create_new_dsa data_size { value with discriminator := 0 }

/-- The struct encoder built inside `getEditDataStorageAccountInstructionDataEncoder`:
fields `discriminator` (u8), `newData` (u8 array of `data_size` items). -/
def ix_edit_dsa (data_size : Nat) (value : EditInstructionData) :
    Option Bytes := do
  let d ← getU8Encoder value.discriminator
  let xs ← getArrayEncoder data_size value.newData
  pure (d ++ xs)

/-- `getEditDataStorageAccountInstructionDataEncoder(data_size)`:
the struct encoder transformed so the encoded `discriminator` is always `1`. -/
def getEditDataStorageAccountInstructionDataEncoder (data_size : Nat)
    (value : EditInstructionData) : Option Bytes :=
  ix_edit_dsa data_size { value with discriminator := 1 }

/-- The struct encoder built inside `getCloseDataStorageAccountInstructionDataEncoder`:
single field `discriminator` (u8). -/
def ix_close_dsa (value : CloseInstructionData) : Option Bytes := do
  let d ← getU8Encoder value.discriminator
  pure d

/-- `getCloseDataStorageAccountInstructionDataEncoder()`:
the struct encoder transformed so the encoded `discriminator` is always `2`. -/
def getCloseDataStorageAccountInstructionDataEncoder
    (value : CloseInstructionData) : Option Bytes :=
  ix_close_dsa { value with discriminator := 2 }

/-! ## Decoder combinators from `@solana/codecs` used by the source

A decoder takes the remaining bytes and returns the decoded value together
with the bytes left over, or `none` when the input is too short (the library
throws a `SolanaError` of the byte-length kind, which the spec calls
`LayoutError`). -/

/-- Read exactly `n` bytes from the front, failing when fewer are available. -/
def readBytes (n : Nat) (bs : Bytes) : Option (Bytes × Bytes) :=
  if n ≤ bs.length then some (bs.take n, bs.drop n) else none

/-- `getAddressDecoder()`: reads 32 bytes; the address value is modelled by
those raw bytes (base58 rendering is a faithful representation of them). -/
def getAddressDecoder (bs : Bytes) : Option (Bytes × Bytes) :=
  readBytes 32 bs

/-- `getUtf8Decoder()`: consumes all remaining bytes and applies
`removeNullCharacters`, which removes every null character — at the byte
level, every `0` byte, wherever it occurs. -/
def getUtf8Decoder (bs : Bytes) : Option (Bytes × Bytes) :=
  some (bs.filter (fun b => b ≠ 0), [])

/-- `fixDecoderSize(decoder, size)`: slice off exactly `size` bytes, run the
inner decoder on that slice, and continue after the slice. -/
def fixDecoderSize {α : Type} (d : Bytes → Option (α × Bytes)) (size : Nat)
    (bs : Bytes) : Option (α × Bytes) := do
  let (pre, rest) ← readBytes size bs
  let (v, _) ← d pre
  pure (v, rest)

/-- `getU8Decoder()`: one byte, as a number. -/
def getU8Decoder (bs : Bytes) : Option (Nat × Bytes) :=
  (readBytes 1 bs).map fun p => (leToNat p.1, p.2)

/-- `getU16Decoder()`: two bytes, little-endian, as a number. -/
def getU16Decoder (bs : Bytes) : Option (Nat × Bytes) :=
  (readBytes 2 bs).map fun p => (leToNat p.1, p.2)

/-- Two's-complement reading of a little-endian byte sequence as a signed
64-bit integer. -/
def i64OfLE (bs : Bytes) : Int :=
  if leToNat bs < 2 ^ 63 then (leToNat bs : Int) else (leToNat bs : Int) - 2 ^ 64

/-- `getI64Decoder()`: eight bytes, little-endian, signed (two's complement). -/
def getI64Decoder (bs : Bytes) : Option (Int × Bytes) :=
  (readBytes 8 bs).map fun p => (i64OfLE p.1, p.2)

/-- `getBooleanDecoder()`: one byte; the decoded value is `byte == 1`. -/
def getBooleanDecoder (bs : Bytes) : Option (Bool × Bytes) :=
  (readBytes 1 bs).map fun p => (decide (leToNat p.1 = 1), p.2)

/-- `getArrayDecoder(getU8Decoder(), { size: getU16Decoder() })`: read a
two-byte little-endian count, then that many single-byte items. -/
def getArrayDecoder (bs : Bytes) : Option (List Nat × Bytes) := do
  let (count, rest) ← getU16Decoder bs
  let (items, rest2) ← readBytes count rest
  pure (items, rest2)

/-- The decoded account state. -/
structure DataStorageAccount where
  authority : Bytes
  label : Bytes
  lastUpdated : Int
  canonicalBump : Nat
  isInitialized : Bool
  data : List Nat
  deriving DecidableEq, Repr

/-- `getDataStorageAccountDecoder().decode(bytes)`: the struct decoder with
fields `authority` (address), `label` (utf8 fixed to 30 bytes), `lastUpdated`
(i64), `canonicalBump` (u8), `isInitialized` (boolean), `data` (u8 array with
u16 count).  `decode` ignores any bytes left after the last field. -/
def getDataStorageAccountDecoder (bs : Bytes) : Option DataStorageAccount := do
  let (authority, r1) ← getAddressDecoder bs
  let (label, r2) ← fixDecoderSize getUtf8Decoder 30 r1
  let (lastUpdated, r3) ← getI64Decoder r2
  let (canonicalBump, r4) ← getU8Decoder r3
  let (isInitialized, r5) ← getBooleanDecoder r4
  let (data, _) ← getArrayDecoder r5
  pure ⟨authority, label, lastUpdated, canonicalBump, isInitialized, data⟩

/-- The `dataLength` field a byte sequence declares: the little-endian value
of the two bytes at offsets 72 and 73 (`32+30+8+1+1 = 72`). -/
def declaredDataLength (bs : Bytes) : Nat :=
  leToNat ((bs.drop 72).take 2)

/-! ## Instruction assembly (`getIxs.mts`) -/

/-- `AccountRole` from `@solana/kit`. -/
inductive AccountRole
  | READONLY
  | WRITABLE
  | READONLY_SIGNER
  | WRITABLE_SIGNER
  deriving DecidableEq, Repr

/-- One entry of an instruction's account list: address plus access role. -/
structure AccountMeta where
  address : String
  role : AccountRole
  deriving DecidableEq, Repr

/-- An assembled instruction (`IInstruction`). -/
structure Instruction where
  programAddress : String
  accounts : List AccountMeta
  data : Bytes
  deriving DecidableEq, Repr

def SYSTEM_PROGRAM_ID : String := "11111111111111111111111111111111"

def DATA_STORAGE_PROGRAM_ID : String :=
  "DSAgnFyNE53P9m5vz9ALojPQwbtaPjwzPa61ZN1oe7mG"

/-- `getCreateDataStorageAccountInstruction`.  The source passes
`{ label, data }` to the encoder; the transform supplies the discriminator,
so the value's `discriminator` field is arbitrary (`0` here). -/
def getCreateDataStorageAccountInstruction
    (new_data_storage_pda data_storage_authority funding_account : String)
    (label : Bytes) (data : List Nat) : Option Instruction :=
  (getCreateDataStorageAccountInstructionDataEncoder data.length
      ⟨0, label, data⟩).map fun payload =>
    { programAddress := DATA_STORAGE_PROGRAM_ID,
      accounts := [
        ⟨new_data_storage_pda, AccountRole.WRITABLE⟩,
        ⟨data_storage_authority, AccountRole.READONLY_SIGNER⟩,
        ⟨funding_account, AccountRole.WRITABLE_SIGNER⟩,
        ⟨SYSTEM_PROGRAM_ID, AccountRole.READONLY⟩],
      data := payload }

/-- `getEditDataStorageAccountWithNewDataLenIsEqualToOldDataLenInstruction`. -/
def getEditDataStorageAccountWithNewDataLenIsEqualToOldDataLenInstruction
    (data_storage_pda data_storage_authority : String)
    (new_data : List Nat) : Option Instruction :=
  (getEditDataStorageAccountInstructionDataEncoder new_data.length
      ⟨1, new_data⟩).map fun payload =>
    { programAddress := DATA_STORAGE_PROGRAM_ID,
      accounts := [
        ⟨data_storage_pda, AccountRole.WRITABLE⟩,
        ⟨data_storage_authority, AccountRole.READONLY_SIGNER⟩],
      data := payload }

/-- `getEditDataStorageAccountWithNewDataLenLessIsThanOldDataLenInstruction`
(the source's name). -/
def getEditDataStorageAccountWithNewDataLenLessIsThanOldDataLenInstruction
    (data_storage_pda data_storage_authority rent_receiver_account : String)
    (new_data : List Nat) : Option Instruction :=
  (getEditDataStorageAccountInstructionDataEncoder new_data.length
      ⟨1, new_data⟩).map fun payload =>
    { programAddress := DATA_STORAGE_PROGRAM_ID,
      accounts := [
        ⟨data_storage_pda, AccountRole.WRITABLE⟩,
        ⟨data_storage_authority, AccountRole.READONLY_SIGNER⟩,
        ⟨rent_receiver_account, AccountRole.WRITABLE⟩],
      data := payload }

/-- `getEditDataStorageAccountWithNewDataLenIsBiggerThanOldDataLenInstruction`. -/
def getEditDataStorageAccountWithNewDataLenIsBiggerThanOldDataLenInstruction
    (data_storage_pda data_storage_authority funding_account : String)
    (new_data : List Nat) : Option Instruction :=
  (getEditDataStorageAccountInstructionDataEncoder new_data.length
      ⟨1, new_data⟩).map fun payload =>
    { programAddress := DATA_STORAGE_PROGRAM_ID,
      accounts := [
        ⟨data_storage_pda, AccountRole.WRITABLE⟩,
        ⟨data_storage_authority, AccountRole.READONLY_SIGNER⟩,
        ⟨funding_account, AccountRole.WRITABLE_SIGNER⟩,
        ⟨SYSTEM_PROGRAM_ID, AccountRole.READONLY⟩],
      data := payload }

/-- `getCloseDataStorageAccountInstruction`.  The source passes `null` to the
encoder; the transform supplies discriminator `2`. -/
def getCloseDataStorageAccountInstruction
    (data_storage_pda data_storage_authority rent_exempt_receiver_account :
      String) : Option Instruction :=
  (getCloseDataStorageAccountInstructionDataEncoder ⟨0⟩).map fun payload =>
    { programAddress := DATA_STORAGE_PROGRAM_ID,
      accounts := [
        ⟨data_storage_pda, AccountRole.WRITABLE⟩,
        ⟨data_storage_authority, AccountRole.READONLY_SIGNER⟩,
        ⟨rent_exempt_receiver_account, AccountRole.WRITABLE⟩],
      data := payload }

/-- Modelled from the spec: the caller selects the Edit variant by comparing
the new data length with the current on-ledger data length — Equal when
`len(newData) == oldLen`, Shorter when `<`, Longer when `>`.  The selection
lives in the callers of the assembly functions, not in the repository's
assembly code itself. -/
def selectEditDataStorageAccountInstruction (oldLen : Nat)
    (data_storage_pda data_storage_authority rent_receiver_account
      funding_account : String) (new_data : List Nat) : Option Instruction :=
  if new_data.length = oldLen then
    getEditDataStorageAccountWithNewDataLenIsEqualToOldDataLenInstruction
      data_storage_pda data_storage_authority new_data
  else if new_data.length < oldLen then
    getEditDataStorageAccountWithNewDataLenLessIsThanOldDataLenInstruction
      data_storage_pda data_storage_authority rent_receiver_account new_data
  else
    getEditDataStorageAccountWithNewDataLenIsBiggerThanOldDataLenInstruction
      data_storage_pda data_storage_authority funding_account new_data

/-- Modelled from the spec: the ledger-side serialization of a data-storage
account, which the repository only ever decodes (`Encode` is not exposed to
clients) — `authority` (32 bytes) · `label` (right-padded with zero bytes to
30) · `lastUpdated` (8-byte signed little-endian) · `canonicalBump` (1 byte) ·
`isInitialized` (1 byte) · `dataLength` (2-byte unsigned little-endian) ·
`data` (`dataLength` bytes). -/
def serializedDataStorageAccountBytes (authority label : Bytes)
    (lastUpdated : Int) (canonicalBump : Nat) (isInit : Bool)
    (data : List Nat) : Bytes :=
  authority ++
    (label ++ List.replicate (30 - label.length) 0) ++
    natToLE 8 ((lastUpdated % (2 ^ 64)).toNat) ++
    [canonicalBump] ++
    [if isInit then 1 else 0] ++
    natToLE 2 data.length ++
    data

end DataStorage

namespace DataStorage

/-! ## Helper lemmas -/

theorem readBytes_of_le (n : Nat) (bs : Bytes) (h : n ≤ bs.length) :
    readBytes n bs = some (bs.take n, bs.drop n) :=
  if_pos h

theorem readBytes_of_lt (n : Nat) (bs : Bytes) (h : bs.length < n) :
    readBytes n bs = none :=
  if_neg (by omega)

theorem encodeU8List_of_bytes (items : List Nat) (h : ∀ b ∈ items, b < 256) :
    encodeU8List items = some items := by
  induction items with
  | nil => rfl
  | cons b rest ih =>
    have hb : b < 256 := h b (by simp)
    have hrest := ih (fun x hx => h x (by simp [hx]))
    simp [encodeU8List, getU8Encoder, hb, hrest]

theorem getArrayEncoder_self (items : List Nat) (h : ∀ b ∈ items, b < 256) :
    getArrayEncoder items.length items = some items := by
  simp [getArrayEncoder, encodeU8List_of_bytes items h]

theorem natToLE_length (k n : Nat) : (natToLE k n).length = k := by
  induction k generalizing n with
  | zero => rfl
  | succ m ih => simp [natToLE, ih]

theorem leToNat_natToLE (k n : Nat) (h : n < 256 ^ k) :
    leToNat (natToLE k n) = n := by
  induction k generalizing n with
  | zero =>
    simp only [natToLE, leToNat]
    simp only [pow_zero] at h
    omega
  | succ m ih =>
    have hd : n / 256 < 256 ^ m := by
      rw [Nat.div_lt_iff_lt_mul (by norm_num)]
      calc n < 256 ^ (m + 1) := h
        _ = 256 ^ m * 256 := by ring
    simp only [natToLE, leToNat, ih _ hd]
    omega

theorem filter_ne_zero_replicate (n : Nat) :
    (List.replicate n (0 : Nat)).filter (fun b => b ≠ 0) = [] := by
  induction n with
  | zero => rfl
  | succ k ih => simp [List.replicate_succ, ih]

theorem i64OfLE_int (i : Int) (h1 : -(2 ^ 63) ≤ i) (h2 : i < 2 ^ 63) :
    i64OfLE (natToLE 8 ((i % (2 ^ 64)).toNat)) = i := by
  have hm0 : 0 ≤ i % (2 ^ 64) := Int.emod_nonneg i (by norm_num)
  have hm1 : i % (2 ^ 64) < 2 ^ 64 := Int.emod_lt_of_pos i (by norm_num)
  have ht : (((i % (2 ^ 64)).toNat : Nat) : Int) = i % (2 ^ 64) :=
    Int.toNat_of_nonneg hm0
  have hpow : (256 : Nat) ^ 8 = 2 ^ 64 := by norm_num
  have hlt : (i % (2 ^ 64)).toNat < 256 ^ 8 := by
    rw [hpow]; omega
  unfold i64OfLE
  rw [leToNat_natToLE 8 _ hlt]
  split_ifs with hc
  · omega
  · omega

/-- The decoder in closed form: it succeeds exactly when the input holds the
74-byte fixed prefix plus the declared number of data bytes, reading each
field at its fixed offset and ignoring anything after the data. -/
theorem getDataStorageAccountDecoder_of_le (bs : Bytes)
    (h : 74 + declaredDataLength bs ≤ bs.length) :
    getDataStorageAccountDecoder bs =
      some ⟨bs.take 32, ((bs.drop 32).take 30).filter (fun b => b ≠ 0),
            i64OfLE ((bs.drop 62).take 8), leToNat ((bs.drop 70).take 1),
            decide (leToNat ((bs.drop 71).take 1) = 1),
            (bs.drop 74).take (declaredDataLength bs)⟩ := by
  have e1 : readBytes 32 bs = some (bs.take 32, bs.drop 32) :=
    readBytes_of_le _ _ (by omega)
  have e2 : readBytes 30 (bs.drop 32) = some ((bs.drop 32).take 30, bs.drop 62) := by
    rw [readBytes_of_le _ _ (by rw [List.length_drop]; omega), List.drop_drop]
  have e3 : readBytes 8 (bs.drop 62) = some ((bs.drop 62).take 8, bs.drop 70) := by
    rw [readBytes_of_le _ _ (by rw [List.length_drop]; omega), List.drop_drop]
  have e4 : readBytes 1 (bs.drop 70) = some ((bs.drop 70).take 1, bs.drop 71) := by
    rw [readBytes_of_le _ _ (by rw [List.length_drop]; omega), List.drop_drop]
  have e5 : readBytes 1 (bs.drop 71) = some ((bs.drop 71).take 1, bs.drop 72) := by
    rw [readBytes_of_le _ _ (by rw [List.length_drop]; omega), List.drop_drop]
  have e6 : readBytes 2 (bs.drop 72) = some ((bs.drop 72).take 2, bs.drop 74) := by
    rw [readBytes_of_le _ _ (by rw [List.length_drop]; omega), List.drop_drop]
  have e7 : readBytes (leToNat ((bs.drop 72).take 2)) (bs.drop 74) =
      some ((bs.drop 74).take (declaredDataLength bs),
            (bs.drop 74).drop (declaredDataLength bs)) :=
    readBytes_of_le _ _
      (by rw [List.length_drop]; unfold declaredDataLength at h; omega)
  simp [getDataStorageAccountDecoder, getAddressDecoder, fixDecoderSize,
    getUtf8Decoder, getI64Decoder, getU8Decoder, getBooleanDecoder,
    getArrayDecoder, getU16Decoder, e1, e2, e3, e4, e5, e6, e7,
    declaredDataLength]

/-- The decoder fails exactly when the input cannot hold the 74-byte fixed
prefix plus the declared number of data bytes. -/
theorem getDataStorageAccountDecoder_of_gt (bs : Bytes)
    (h : bs.length < 74 + declaredDataLength bs) :
    getDataStorageAccountDecoder bs = none := by
  by_cases c1 : 32 ≤ bs.length
  · have e1 : readBytes 32 bs = some (bs.take 32, bs.drop 32) :=
      readBytes_of_le _ _ c1
    by_cases c2 : 62 ≤ bs.length
    · have e2 : readBytes 30 (bs.drop 32) = some ((bs.drop 32).take 30, bs.drop 62) := by
        rw [readBytes_of_le _ _ (by rw [List.length_drop]; omega), List.drop_drop]
      by_cases c3 : 70 ≤ bs.length
      · have e3 : readBytes 8 (bs.drop 62) = some ((bs.drop 62).take 8, bs.drop 70) := by
          rw [readBytes_of_le _ _ (by rw [List.length_drop]; omega), List.drop_drop]
        by_cases c4 : 71 ≤ bs.length
        · have e4 : readBytes 1 (bs.drop 70) = some ((bs.drop 70).take 1, bs.drop 71) := by
            rw [readBytes_of_le _ _ (by rw [List.length_drop]; omega), List.drop_drop]
          by_cases c5 : 72 ≤ bs.length
          · have e5 : readBytes 1 (bs.drop 71) = some ((bs.drop 71).take 1, bs.drop 72) := by
              rw [readBytes_of_le _ _ (by rw [List.length_drop]; omega), List.drop_drop]
            by_cases c6 : 74 ≤ bs.length
            · have e6 : readBytes 2 (bs.drop 72) = some ((bs.drop 72).take 2, bs.drop 74) := by
                rw [readBytes_of_le _ _ (by rw [List.length_drop]; omega), List.drop_drop]
              have e7 : readBytes (leToNat ((bs.drop 72).take 2)) (bs.drop 74) = none :=
                readBytes_of_lt _ _
                  (by rw [List.length_drop]; unfold declaredDataLength at h; omega)
              simp [getDataStorageAccountDecoder, getAddressDecoder, fixDecoderSize,
                getUtf8Decoder, getI64Decoder, getU8Decoder, getBooleanDecoder,
                getArrayDecoder, getU16Decoder, e1, e2, e3, e4, e5, e6, e7]
            · have e6 : readBytes 2 (bs.drop 72) = none :=
                readBytes_of_lt _ _ (by rw [List.length_drop]; omega)
              simp [getDataStorageAccountDecoder, getAddressDecoder, fixDecoderSize,
                getUtf8Decoder, getI64Decoder, getU8Decoder, getBooleanDecoder,
                getArrayDecoder, getU16Decoder, e1, e2, e3, e4, e5, e6]
          · have e5 : readBytes 1 (bs.drop 71) = none :=
              readBytes_of_lt _ _ (by rw [List.length_drop]; omega)
            simp [getDataStorageAccountDecoder, getAddressDecoder, fixDecoderSize,
              getUtf8Decoder, getI64Decoder, getU8Decoder, getBooleanDecoder,
              getArrayDecoder, getU16Decoder, e1, e2, e3, e4, e5]
        · have e4 : readBytes 1 (bs.drop 70) = none :=
            readBytes_of_lt _ _ (by rw [List.length_drop]; omega)
          simp [getDataStorageAccountDecoder, getAddressDecoder, fixDecoderSize,
            getUtf8Decoder, getI64Decoder, getU8Decoder, getBooleanDecoder,
            getArrayDecoder, getU16Decoder, e1, e2, e3, e4]
      · have e3 : readBytes 8 (bs.drop 62) = none :=
          readBytes_of_lt _ _ (by rw [List.length_drop]; omega)
        simp [getDataStorageAccountDecoder, getAddressDecoder, fixDecoderSize,
          getUtf8Decoder, getI64Decoder, getU8Decoder, getBooleanDecoder,
          getArrayDecoder, getU16Decoder, e1, e2, e3]
    · have e2 : readBytes 30 (bs.drop 32) = none :=
        readBytes_of_lt _ _ (by rw [List.length_drop]; omega)
      simp [getDataStorageAccountDecoder, getAddressDecoder, fixDecoderSize,
        getUtf8Decoder, getI64Decoder, getU8Decoder, getBooleanDecoder,
        getArrayDecoder, getU16Decoder, e1, e2]
  · have e1 : readBytes 32 bs = none := readBytes_of_lt _ _ (by omega)
    simp [getDataStorageAccountDecoder, getAddressDecoder, e1]

end DataStorage

namespace DataStorage

theorem readBytes_exact (n : Nat) (pre rest : Bytes) (h : pre.length = n) :
    readBytes n (pre ++ rest) = some (pre, rest) := by
  subst h
  rw [readBytes_of_le _ _ (by simp)]
  rw [List.take_left, List.drop_left]

theorem readBytes_all (bs : Bytes) : readBytes bs.length bs = some (bs, []) := by
  rw [readBytes_of_le _ _ (le_refl _)]
  simp

theorem take_drop_take {α : Type} (l : List α) (m k j : Nat) (h : k + j ≤ m) :
    ((l.take m).drop k).take j = (l.drop k).take j := by
  rw [List.drop_take, List.take_take, min_eq_left (by omega)]

/-! ## Closed forms of the payload encoders and instruction builders -/

theorem createEncoder_eq (d : Nat) (label : Bytes) (data : List Nat)
    (h : ∀ b ∈ data, b < 256) :
    getCreateDataStorageAccountInstructionDataEncoder data.length ⟨d, label, data⟩ =
      some (0 :: (label.take 30 ++ List.replicate (30 - label.length) 0 ++ data)) := by
  simp [getCreateDataStorageAccountInstructionDataEncoder, ix_create_new_dsa,
    getU8Encoder, fixEncoderSize, getUtf8Encoder, getArrayEncoder_self data h]

theorem editEncoder_eq (d : Nat) (newData : List Nat) (h : ∀ b ∈ newData, b < 256) :
    getEditDataStorageAccountInstructionDataEncoder newData.length ⟨d, newData⟩ =
      some (1 :: newData) := by
  simp [getEditDataStorageAccountInstructionDataEncoder, ix_edit_dsa,
    getU8Encoder, getArrayEncoder_self newData h]

theorem closeEncoder_eq (d : Nat) :
    getCloseDataStorageAccountInstructionDataEncoder ⟨d⟩ = some [2] := by
  simp [getCloseDataStorageAccountInstructionDataEncoder, ix_close_dsa, getU8Encoder]

theorem createInstruction_eq (pda auth fund : String) (label : Bytes)
    (data : List Nat) (h : ∀ b ∈ data, b < 256) :
    getCreateDataStorageAccountInstruction pda auth fund label data =
      some ⟨DATA_STORAGE_PROGRAM_ID,
        [⟨pda, AccountRole.WRITABLE⟩, ⟨auth, AccountRole.READONLY_SIGNER⟩,
         ⟨fund, AccountRole.WRITABLE_SIGNER⟩, ⟨SYSTEM_PROGRAM_ID, AccountRole.READONLY⟩],
        0 :: (label.take 30 ++ List.replicate (30 - label.length) 0 ++ data)⟩ := by
  simp [getCreateDataStorageAccountInstruction, createEncoder_eq 0 label data h]

theorem editEqInstruction_eq (pda auth : String) (nd : List Nat)
    (h : ∀ b ∈ nd, b < 256) :
    getEditDataStorageAccountWithNewDataLenIsEqualToOldDataLenInstruction pda auth nd =
      some ⟨DATA_STORAGE_PROGRAM_ID,
        [⟨pda, AccountRole.WRITABLE⟩, ⟨auth, AccountRole.READONLY_SIGNER⟩],
        1 :: nd⟩ := by
  simp [getEditDataStorageAccountWithNewDataLenIsEqualToOldDataLenInstruction,
    editEncoder_eq 1 nd h]

theorem editLessInstruction_eq (pda auth rr : String) (nd : List Nat)
    (h : ∀ b ∈ nd, b < 256) :
    getEditDataStorageAccountWithNewDataLenLessIsThanOldDataLenInstruction
        pda auth rr nd =
      some ⟨DATA_STORAGE_PROGRAM_ID,
        [⟨pda, AccountRole.WRITABLE⟩, ⟨auth, AccountRole.READONLY_SIGNER⟩,
         ⟨rr, AccountRole.WRITABLE⟩],
        1 :: nd⟩ := by
  simp [getEditDataStorageAccountWithNewDataLenLessIsThanOldDataLenInstruction,
    editEncoder_eq 1 nd h]

theorem editBiggerInstruction_eq (pda auth fa : String) (nd : List Nat)
    (h : ∀ b ∈ nd, b < 256) :
    getEditDataStorageAccountWithNewDataLenIsBiggerThanOldDataLenInstruction
        pda auth fa nd =
      some ⟨DATA_STORAGE_PROGRAM_ID,
        [⟨pda, AccountRole.WRITABLE⟩, ⟨auth, AccountRole.READONLY_SIGNER⟩,
         ⟨fa, AccountRole.WRITABLE_SIGNER⟩, ⟨SYSTEM_PROGRAM_ID, AccountRole.READONLY⟩],
        1 :: nd⟩ := by
  simp [getEditDataStorageAccountWithNewDataLenIsBiggerThanOldDataLenInstruction,
    editEncoder_eq 1 nd h]

theorem closeInstruction_eq (pda auth recv : String) :
    getCloseDataStorageAccountInstruction pda auth recv =
      some ⟨DATA_STORAGE_PROGRAM_ID,
        [⟨pda, AccountRole.WRITABLE⟩, ⟨auth, AccountRole.READONLY_SIGNER⟩,
         ⟨recv, AccountRole.WRITABLE⟩],
        [2]⟩ := by
  simp [getCloseDataStorageAccountInstruction, closeEncoder_eq 0]

end DataStorage

namespace DataStorage

/-! ## Claim theorems -/

/-- C1: for every `oldLen` and `newLen`, the Edit variant chosen per the
comparison `newLen == oldLen` / `<` / `>` produces an instruction whose
ordered account list exactly matches the specified shape — Equal gives
`[account (writable), authority (read-only signer)]`; Shorter adds the
rent-receiver (writable); Longer gives
`[account (writable), authority (read-only signer), funding (writable signer),
system program (read-only)]` — and all three carry the Edit payload with
discriminator 1. -/
theorem claim1_edit_variant_account_lists (oldLen : Nat) (pda auth rr fa : String)
    (new_data : List Nat) (h : ∀ b ∈ new_data, b < 256) :
    (new_data.length = oldLen →
      selectEditDataStorageAccountInstruction oldLen pda auth rr fa new_data =
        some ⟨DATA_STORAGE_PROGRAM_ID,
          [⟨pda, AccountRole.WRITABLE⟩, ⟨auth, AccountRole.READONLY_SIGNER⟩],
          1 :: new_data⟩) ∧
    (new_data.length < oldLen →
      selectEditDataStorageAccountInstruction oldLen pda auth rr fa new_data =
        some ⟨DATA_STORAGE_PROGRAM_ID,
          [⟨pda, AccountRole.WRITABLE⟩, ⟨auth, AccountRole.READONLY_SIGNER⟩,
           ⟨rr, AccountRole.WRITABLE⟩],
          1 :: new_data⟩) ∧
    (new_data.length > oldLen →
      selectEditDataStorageAccountInstruction oldLen pda auth rr fa new_data =
        some ⟨DATA_STORAGE_PROGRAM_ID,
          [⟨pda, AccountRole.WRITABLE⟩, ⟨auth, AccountRole.READONLY_SIGNER⟩,
           ⟨fa, AccountRole.WRITABLE_SIGNER⟩, ⟨SYSTEM_PROGRAM_ID, AccountRole.READONLY⟩],
          1 :: new_data⟩) := by
  refine ⟨fun hc => ?_, fun hc => ?_, fun hc => ?_⟩
  · rw [selectEditDataStorageAccountInstruction, if_pos hc]
    exact editEqInstruction_eq pda auth new_data h
  · rw [selectEditDataStorageAccountInstruction, if_neg (by omega), if_pos hc]
    exact editLessInstruction_eq pda auth rr new_data h
  · rw [selectEditDataStorageAccountInstruction, if_neg (by omega), if_neg (by omega)]
    exact editBiggerInstruction_eq pda auth fa new_data h

/-- Witness for C1: `oldLen = 3`, `newData = [5, 6]` selects the Shorter
variant with exactly three accounts, the third the writable rent receiver. -/
theorem claim1_edit_variant_account_lists_witness :
    selectEditDataStorageAccountInstruction 3 "P" "A" "R" "F" [5, 6] =
      some ⟨DATA_STORAGE_PROGRAM_ID,
        [⟨"P", AccountRole.WRITABLE⟩, ⟨"A", AccountRole.READONLY_SIGNER⟩,
         ⟨"R", AccountRole.WRITABLE⟩],
        1 :: [5, 6]⟩ :=
  (claim1_edit_variant_account_lists 3 "P" "A" "R" "F" [5, 6]
    (by decide)).2.1 (by decide)

/-- C2: decoding fails exactly when the input is shorter than the 74-byte
fixed prefix or the declared 2-byte data length exceeds the remaining bytes;
in particular a 74-byte buffer whose `dataLength` field is 2 with no trailing
bytes fails. -/
theorem claim2_decode_layout_error_iff :
    (∀ bs : Bytes, getDataStorageAccountDecoder bs = none ↔
      (bs.length < 74 ∨ bs.length - 74 < declaredDataLength bs)) ∧
    getDataStorageAccountDecoder (List.replicate 72 0 ++ [2, 0]) = none := by
  constructor
  · intro bs
    constructor
    · intro hnone
      by_contra hcontra
      push_neg at hcontra
      have hle : 74 + declaredDataLength bs ≤ bs.length := by omega
      rw [getDataStorageAccountDecoder_of_le bs hle] at hnone
      exact Option.noConfusion hnone
    · intro hor
      exact getDataStorageAccountDecoder_of_gt bs (by omega)
  · decide

/-- Witness for C2: a 10-byte input is shorter than the fixed prefix, so the
decoder fails on it. -/
theorem claim2_decode_layout_error_iff_witness :
    getDataStorageAccountDecoder (List.replicate 10 0) = none :=
  ((claim2_decode_layout_error_iff.1 (List.replicate 10 0)).mpr (by decide))

/-- C3 counterexample: the round trip as claimed fails for a label with an
interior null byte.  Serializing an account whose label is `[104, 0, 105]`
(which is at most 30 UTF-8 bytes and has no trailing padding of its own) and
decoding it yields the label `[104, 105]`: the UTF-8 decoder removes every
null character, not only the trailing padding. -/
theorem claim3_roundtrip_counterexample :
    getDataStorageAccountDecoder
        (serializedDataStorageAccountBytes (List.replicate 32 7) [104, 0, 105]
          0 0 true []) =
      some ⟨List.replicate 32 7, [104, 105], 0, 0, true, []⟩ ∧
    (getDataStorageAccountDecoder
        (serializedDataStorageAccountBytes (List.replicate 32 7) [104, 0, 105]
          0 0 true [])).map DataStorageAccount.label ≠ some [104, 0, 105] :=
  ⟨by decide, by decide⟩

/-- C3 amended: for every account whose label is at most 30 UTF-8 bytes and
whose data has length 0..65535, decoding the ledger serialization recovers the
same `authority`, `lastUpdated`, `canonicalBump`, `isInitialized`, and `data`,
and recovers the label with every null (zero) byte removed — which equals the
label with its trailing padding stripped exactly when the label contains no
null byte of its own. -/
theorem claim3_roundtrip_amended (authority label : Bytes) (lastUpdated : Int)
    (canonicalBump : Nat) (isInit : Bool) (data : List Nat)
    (hauth : authority.length = 32) (hlabel : label.length ≤ 30)
    (hdata : data.length ≤ 65535)
    (hts1 : -(2 ^ 63) ≤ lastUpdated) (hts2 : lastUpdated < 2 ^ 63) :
    getDataStorageAccountDecoder
        (serializedDataStorageAccountBytes authority label lastUpdated
          canonicalBump isInit data) =
      some ⟨authority, label.filter (fun b => b ≠ 0), lastUpdated, canonicalBump,
            isInit, data⟩ := by
  have hpad : (label ++ List.replicate (30 - label.length) 0).length = 30 := by
    simp
    omega
  have hs : serializedDataStorageAccountBytes authority label lastUpdated
        canonicalBump isInit data =
      authority ++ ((label ++ List.replicate (30 - label.length) 0) ++
        (natToLE 8 ((lastUpdated % (2 ^ 64)).toNat) ++ ([canonicalBump] ++
          ([if isInit then 1 else 0] ++ (natToLE 2 data.length ++ data))))) := by
    simp [serializedDataStorageAccountBytes, List.append_assoc]
  have e1 : ∀ rest : Bytes, readBytes 32 (authority ++ rest) = some (authority, rest) :=
    fun rest => readBytes_exact 32 authority rest hauth
  have e2 : ∀ rest : Bytes,
      readBytes 30 ((label ++ List.replicate (30 - label.length) 0) ++ rest) =
        some (label ++ List.replicate (30 - label.length) 0, rest) :=
    fun rest => readBytes_exact 30 _ rest hpad
  have e3 : ∀ rest : Bytes,
      readBytes 8 (natToLE 8 ((lastUpdated % (2 ^ 64)).toNat) ++ rest) =
        some (natToLE 8 ((lastUpdated % (2 ^ 64)).toNat), rest) :=
    fun rest => readBytes_exact 8 _ rest (natToLE_length 8 _)
  have e4 : ∀ rest : Bytes, readBytes 1 (canonicalBump :: rest) =
      some ([canonicalBump], rest) :=
    fun rest => readBytes_exact 1 [canonicalBump] rest rfl
  have e5 : ∀ rest : Bytes, readBytes 1 ((if isInit then 1 else 0) :: rest) =
      some ([if isInit then 1 else 0], rest) :=
    fun rest => readBytes_exact 1 [if isInit then 1 else 0] rest rfl
  have e6 : ∀ rest : Bytes, readBytes 2 (natToLE 2 data.length ++ rest) =
      some (natToLE 2 data.length, rest) :=
    fun rest => readBytes_exact 2 _ rest (natToLE_length 2 _)
  have hu16 : leToNat (natToLE 2 data.length) = data.length :=
    leToNat_natToLE 2 _ (by norm_num; omega)
  have e7 : readBytes (leToNat (natToLE 2 data.length)) data = some (data, []) := by
    rw [hu16]
    exact readBytes_all data
  have hlbl : (label ++ List.replicate (30 - label.length) 0).filter
      (fun b => b ≠ 0) = label.filter (fun b => b ≠ 0) := by
    rw [List.filter_append, filter_ne_zero_replicate]
    simp
  have hts : i64OfLE (natToLE 8 ((lastUpdated % (2 ^ 64)).toNat)) = lastUpdated :=
    i64OfLE_int lastUpdated hts1 hts2
  have hbump : leToNat [canonicalBump] = canonicalBump := by
    simp [leToNat]
  have hinit : decide (leToNat [if isInit then 1 else 0] = 1) = isInit := by
    cases isInit <;> simp [leToNat]
  rw [hs]
  simp only [getDataStorageAccountDecoder, getAddressDecoder, fixDecoderSize,
    getUtf8Decoder, getI64Decoder, getU8Decoder, getBooleanDecoder,
    getArrayDecoder, getU16Decoder, e1, e2, e3, e4, e5, e6, e7,
    Option.bind_eq_bind, Option.some_bind, Option.map_some', Option.pure_def,
    List.singleton_append, hlbl, hts, hbump, hinit]

/-- Witness for C3 (amended): a concrete account round-trips, with the
null-free label recovered unchanged. -/
theorem claim3_roundtrip_amended_witness :
    getDataStorageAccountDecoder
        (serializedDataStorageAccountBytes (List.replicate 32 0) [104] 0 1
          true [1, 2]) =
      some ⟨List.replicate 32 0, List.filter (fun b => b ≠ 0) [104], 0, 1,
            true, [1, 2]⟩ :=
  claim3_roundtrip_amended (List.replicate 32 0) [104] 0 1 true [1, 2]
    (by decide) (by decide) (by decide) (by norm_num) (by norm_num)

end DataStorage

namespace DataStorage

/-- C4: the encoded payload of a Create instruction starts with byte 0, of an
Edit instruction with byte 1, and of a Close instruction with byte 2,
regardless of the discriminator value in the caller-supplied struct. -/
theorem claim4_discriminator_override :
    (∀ (d : Nat) (label : Bytes) (data : List Nat) (size : Nat) (bs : Bytes),
      getCreateDataStorageAccountInstructionDataEncoder size ⟨d, label, data⟩ =
        some bs → bs.head? = some 0) ∧
    (∀ (d : Nat) (newData : List Nat) (size : Nat) (bs : Bytes),
      getEditDataStorageAccountInstructionDataEncoder size ⟨d, newData⟩ =
        some bs → bs.head? = some 1) ∧
    (∀ (d : Nat) (bs : Bytes),
      getCloseDataStorageAccountInstructionDataEncoder ⟨d⟩ = some bs →
      bs.head? = some 2) := by
  have e0 : getU8Encoder 0 = some [0] := rfl
  have e1 : getU8Encoder 1 = some [1] := rfl
  have e2 : getU8Encoder 2 = some [2] := rfl
  refine ⟨?_, ?_, ?_⟩
  · intro d label data size bs henc
    simp only [getCreateDataStorageAccountInstructionDataEncoder,
      ix_create_new_dsa, e0, fixEncoderSize, getUtf8Encoder,
      getArrayEncoder] at henc
    split_ifs at henc
    · cases hy : encodeU8List data with
      | none => rw [hy] at henc; simp at henc
      | some ys =>
        rw [hy] at henc
        simp at henc
        simp [← henc]
    · simp at henc
  · intro d newData size bs henc
    simp only [getEditDataStorageAccountInstructionDataEncoder, ix_edit_dsa,
      e1, getArrayEncoder] at henc
    split_ifs at henc
    · cases hy : encodeU8List newData with
      | none => rw [hy] at henc; simp at henc
      | some ys =>
        rw [hy] at henc
        simp at henc
        simp [← henc]
    · simp at henc
  · intro d bs henc
    simp only [getCloseDataStorageAccountInstructionDataEncoder, ix_close_dsa,
      e2] at henc
    simp at henc
    simp [← henc]

/-- Witness for C4: a Create payload built with caller discriminator 7 still
starts with byte 0. -/
theorem claim4_discriminator_override_witness :
    ((0 : Nat) :: ([1] ++ List.replicate 29 0 ++ [2]) : Bytes).head? = some 0 :=
  claim4_discriminator_override.1 7 [1] [2] 1
    (0 :: ([1] ++ List.replicate 29 0 ++ [2])) (by decide)

/-- C5: the assembled Create instruction's account list is exactly
`[new account (writable), authority (read-only signer),
funding account (writable signer), system program (read-only)]` and its
payload is the Create encoding of `(label, data)` with the data bytes
appended raw, with no self-prefixed length. -/
theorem claim5_create_instruction_shape (pda auth fund : String)
    (label : Bytes) (data : List Nat) (h : ∀ b ∈ data, b < 256) :
    getCreateDataStorageAccountInstruction pda auth fund label data =
      some ⟨DATA_STORAGE_PROGRAM_ID,
        [⟨pda, AccountRole.WRITABLE⟩, ⟨auth, AccountRole.READONLY_SIGNER⟩,
         ⟨fund, AccountRole.WRITABLE_SIGNER⟩, ⟨SYSTEM_PROGRAM_ID, AccountRole.READONLY⟩],
        0 :: (label.take 30 ++ List.replicate (30 - label.length) 0 ++ data)⟩ :=
  createInstruction_eq pda auth fund label data h

/-- Witness for C5 at a concrete input. -/
theorem claim5_create_instruction_shape_witness :
    getCreateDataStorageAccountInstruction "P" "A" "F" [104] [1] =
      some ⟨DATA_STORAGE_PROGRAM_ID,
        [⟨"P", AccountRole.WRITABLE⟩, ⟨"A", AccountRole.READONLY_SIGNER⟩,
         ⟨"F", AccountRole.WRITABLE_SIGNER⟩, ⟨SYSTEM_PROGRAM_ID, AccountRole.READONLY⟩],
        0 :: (List.take 30 [104] ++ List.replicate (30 - List.length [104]) 0 ++ [1])⟩ :=
  claim5_create_instruction_shape "P" "A" "F" [104] [1] (by decide)

/-- C6: the assembled Close instruction's account list is exactly
`[account (writable), authority (read-only signer),
rent-exempt-balance receiver (writable)]` and its payload is exactly the
single discriminator byte 2. -/
theorem claim6_close_instruction_shape (pda auth recv : String) :
    getCloseDataStorageAccountInstruction pda auth recv =
      some ⟨DATA_STORAGE_PROGRAM_ID,
        [⟨pda, AccountRole.WRITABLE⟩, ⟨auth, AccountRole.READONLY_SIGNER⟩,
         ⟨recv, AccountRole.WRITABLE⟩],
        [2]⟩ :=
  closeInstruction_eq pda auth recv

/-- C7: the label is encoded into a fixed 30-byte slot, right-padded with
zero bytes when shorter and silently truncated when longer; the Create
payload for label "hello" and data `[1, 2, 3]` is byte 0, the five bytes
68 65 6C 6C 6F, 25 zero bytes, then 01 02 03. -/
theorem claim7_label_fixed_slot :
    (∀ label : Bytes, label.length ≤ 30 →
      fixEncoderSize getUtf8Encoder 30 label =
        some (label ++ List.replicate (30 - label.length) 0)) ∧
    (∀ label : Bytes, 30 ≤ label.length →
      fixEncoderSize getUtf8Encoder 30 label = some (label.take 30)) ∧
    getCreateDataStorageAccountInstructionDataEncoder 3
        ⟨0, [0x68, 0x65, 0x6C, 0x6C, 0x6F], [1, 2, 3]⟩ =
      some (0x00 :: ([0x68, 0x65, 0x6C, 0x6C, 0x6F] ++ List.replicate 25 0 ++
        [1, 2, 3])) := by
  refine ⟨?_, ?_, by decide⟩
  · intro label hle
    simp [fixEncoderSize, getUtf8Encoder, List.take_of_length_le hle]
  · intro label hge
    simp [fixEncoderSize, getUtf8Encoder, Nat.sub_eq_zero_of_le hge]

/-- Witness for C7: a 2-byte label is right-padded with 28 zero bytes. -/
theorem claim7_label_fixed_slot_witness :
    fixEncoderSize getUtf8Encoder 30 ([1, 2] : Bytes) =
      some ([1, 2] ++ List.replicate (30 - List.length [1, 2]) 0) :=
  claim7_label_fixed_slot.1 [1, 2] (by decide)

end DataStorage

namespace DataStorage

/-- C8: every instruction the five assembly functions produce targets the
fixed data-storage program address and its account list begins with the
supplied data-storage account (writable) followed by the supplied authority
(read-only signer). -/
theorem claim8_program_address_and_account_prefix :
    (∀ (pda auth fund : String) (label : Bytes) (data : List Nat)
        (ins : Instruction),
      getCreateDataStorageAccountInstruction pda auth fund label data =
        some ins →
      ins.programAddress = DATA_STORAGE_PROGRAM_ID ∧
      ins.accounts.take 2 =
        [⟨pda, AccountRole.WRITABLE⟩, ⟨auth, AccountRole.READONLY_SIGNER⟩]) ∧
    (∀ (pda auth : String) (nd : List Nat) (ins : Instruction),
      getEditDataStorageAccountWithNewDataLenIsEqualToOldDataLenInstruction
          pda auth nd = some ins →
      ins.programAddress = DATA_STORAGE_PROGRAM_ID ∧
      ins.accounts.take 2 =
        [⟨pda, AccountRole.WRITABLE⟩, ⟨auth, AccountRole.READONLY_SIGNER⟩]) ∧
    (∀ (pda auth rr : String) (nd : List Nat) (ins : Instruction),
      getEditDataStorageAccountWithNewDataLenLessIsThanOldDataLenInstruction
          pda auth rr nd = some ins →
      ins.programAddress = DATA_STORAGE_PROGRAM_ID ∧
      ins.accounts.take 2 =
        [⟨pda, AccountRole.WRITABLE⟩, ⟨auth, AccountRole.READONLY_SIGNER⟩]) ∧
    (∀ (pda auth fa : String) (nd : List Nat) (ins : Instruction),
      getEditDataStorageAccountWithNewDataLenIsBiggerThanOldDataLenInstruction
          pda auth fa nd = some ins →
      ins.programAddress = DATA_STORAGE_PROGRAM_ID ∧
      ins.accounts.take 2 =
        [⟨pda, AccountRole.WRITABLE⟩, ⟨auth, AccountRole.READONLY_SIGNER⟩]) ∧
    (∀ (pda auth recv : String) (ins : Instruction),
      getCloseDataStorageAccountInstruction pda auth recv = some ins →
      ins.programAddress = DATA_STORAGE_PROGRAM_ID ∧
      ins.accounts.take 2 =
        [⟨pda, AccountRole.WRITABLE⟩, ⟨auth, AccountRole.READONLY_SIGNER⟩]) := by
  refine ⟨?_, ?_, ?_, ?_, ?_⟩
  · intro pda auth fund label data ins hins
    simp only [getCreateDataStorageAccountInstruction] at hins
    cases he : getCreateDataStorageAccountInstructionDataEncoder data.length
        ⟨0, label, data⟩ with
    | none => rw [he] at hins; simp at hins
    | some payload =>
      rw [he] at hins
      simp at hins
      simp [← hins]
  · intro pda auth nd ins hins
    simp only
      [getEditDataStorageAccountWithNewDataLenIsEqualToOldDataLenInstruction]
      at hins
    cases he : getEditDataStorageAccountInstructionDataEncoder nd.length
        ⟨1, nd⟩ with
    | none => rw [he] at hins; simp at hins
    | some payload =>
      rw [he] at hins
      simp at hins
      simp [← hins]
  · intro pda auth rr nd ins hins
    simp only
      [getEditDataStorageAccountWithNewDataLenLessIsThanOldDataLenInstruction]
      at hins
    cases he : getEditDataStorageAccountInstructionDataEncoder nd.length
        ⟨1, nd⟩ with
    | none => rw [he] at hins; simp at hins
    | some payload =>
      rw [he] at hins
      simp at hins
      simp [← hins]
  · intro pda auth fa nd ins hins
    simp only
      [getEditDataStorageAccountWithNewDataLenIsBiggerThanOldDataLenInstruction]
      at hins
    cases he : getEditDataStorageAccountInstructionDataEncoder nd.length
        ⟨1, nd⟩ with
    | none => rw [he] at hins; simp at hins
    | some payload =>
      rw [he] at hins
      simp at hins
      simp [← hins]
  · intro pda auth recv ins hins
    simp only [getCloseDataStorageAccountInstruction] at hins
    cases he : getCloseDataStorageAccountInstructionDataEncoder ⟨0⟩ with
    | none => rw [he] at hins; simp at hins
    | some payload =>
      rw [he] at hins
      simp at hins
      simp [← hins]

/-- Witness for C8: the Close builder at concrete addresses targets the
program address and starts with the account/authority pair. -/
theorem claim8_program_address_and_account_prefix_witness :
    (Instruction.mk DATA_STORAGE_PROGRAM_ID
        [⟨"P", AccountRole.WRITABLE⟩, ⟨"A", AccountRole.READONLY_SIGNER⟩,
         ⟨"R", AccountRole.WRITABLE⟩] [2]).programAddress =
      DATA_STORAGE_PROGRAM_ID ∧
    (Instruction.mk DATA_STORAGE_PROGRAM_ID
        [⟨"P", AccountRole.WRITABLE⟩, ⟨"A", AccountRole.READONLY_SIGNER⟩,
         ⟨"R", AccountRole.WRITABLE⟩] [2]).accounts.take 2 =
      [⟨"P", AccountRole.WRITABLE⟩, ⟨"A", AccountRole.READONLY_SIGNER⟩] :=
  claim8_program_address_and_account_prefix.2.2.2.2 "P" "A" "R"
    (Instruction.mk DATA_STORAGE_PROGRAM_ID
      [⟨"P", AccountRole.WRITABLE⟩, ⟨"A", AccountRole.READONLY_SIGNER⟩,
       ⟨"R", AccountRole.WRITABLE⟩] [2]) (by decide)

/-- C9: with the encoder's size parameter instantiated by the array's actual
length, as the assembly functions do, payload encoding never fails, and the
payload length is exactly `31 + data.length` for Create, `1 + newData.length`
for Edit, and 1 for Close. -/
theorem claim9_payload_total_and_lengths :
    (∀ (pda auth fund : String) (label : Bytes) (data : List Nat),
      (∀ b ∈ data, b < 256) →
      ∃ ins, getCreateDataStorageAccountInstruction pda auth fund label data =
        some ins ∧ ins.data.length = 31 + data.length) ∧
    (∀ (pda auth : String) (nd : List Nat), (∀ b ∈ nd, b < 256) →
      ∃ ins,
        getEditDataStorageAccountWithNewDataLenIsEqualToOldDataLenInstruction
          pda auth nd = some ins ∧ ins.data.length = 1 + nd.length) ∧
    (∀ (pda auth rr : String) (nd : List Nat), (∀ b ∈ nd, b < 256) →
      ∃ ins,
        getEditDataStorageAccountWithNewDataLenLessIsThanOldDataLenInstruction
          pda auth rr nd = some ins ∧ ins.data.length = 1 + nd.length) ∧
    (∀ (pda auth fa : String) (nd : List Nat), (∀ b ∈ nd, b < 256) →
      ∃ ins,
        getEditDataStorageAccountWithNewDataLenIsBiggerThanOldDataLenInstruction
          pda auth fa nd = some ins ∧ ins.data.length = 1 + nd.length) ∧
    (∀ (pda auth recv : String),
      ∃ ins, getCloseDataStorageAccountInstruction pda auth recv = some ins ∧
        ins.data.length = 1) := by
  refine ⟨?_, ?_, ?_, ?_, ?_⟩
  · intro pda auth fund label data h
    refine ⟨_, createInstruction_eq pda auth fund label data h, ?_⟩
    simp [List.length_append, List.length_take, List.length_replicate]
    omega
  · intro pda auth nd h
    exact ⟨_, editEqInstruction_eq pda auth nd h, by simp [Nat.add_comm]⟩
  · intro pda auth rr nd h
    exact ⟨_, editLessInstruction_eq pda auth rr nd h, by simp [Nat.add_comm]⟩
  · intro pda auth fa nd h
    exact ⟨_, editBiggerInstruction_eq pda auth fa nd h, by simp [Nat.add_comm]⟩
  · intro pda auth recv
    exact ⟨_, closeInstruction_eq pda auth recv, by simp⟩

/-- Witness for C9: a Create instruction for a 1-byte label and 1-byte data
has a 32-byte payload. -/
theorem claim9_payload_total_and_lengths_witness :
    ∃ ins, getCreateDataStorageAccountInstruction "P" "A" "F" [1] [2] =
      some ins ∧ ins.data.length = 32 :=
  claim9_payload_total_and_lengths.1 "P" "A" "F" [1] [2] (by decide)

/-- C10: decoding succeeds on every byte sequence of length at least 74 plus
the declared data length, and the result depends only on the first
`74 + dataLength` bytes — trailing bytes are ignored, not rejected. -/
theorem claim10_decode_ignores_trailing (bs : Bytes)
    (h : 74 + declaredDataLength bs ≤ bs.length) :
    (getDataStorageAccountDecoder bs).isSome = true ∧
    getDataStorageAccountDecoder bs =
      getDataStorageAccountDecoder (bs.take (74 + declaredDataLength bs)) := by
  have hdl : declaredDataLength (bs.take (74 + declaredDataLength bs)) =
      declaredDataLength bs := by
    unfold declaredDataLength
    rw [take_drop_take bs _ 72 2 (by omega)]
  have hlen : (bs.take (74 + declaredDataLength bs)).length =
      74 + declaredDataLength bs := by
    rw [List.length_take]
    omega
  have c1 : (bs.take (74 + declaredDataLength bs)).take 32 = bs.take 32 := by
    rw [List.take_take, min_eq_left (by omega)]
  have c2 : ((bs.take (74 + declaredDataLength bs)).drop 32).take 30 =
      (bs.drop 32).take 30 := take_drop_take bs _ 32 30 (by omega)
  have c3 : ((bs.take (74 + declaredDataLength bs)).drop 62).take 8 =
      (bs.drop 62).take 8 := take_drop_take bs _ 62 8 (by omega)
  have c4 : ((bs.take (74 + declaredDataLength bs)).drop 70).take 1 =
      (bs.drop 70).take 1 := take_drop_take bs _ 70 1 (by omega)
  have c5 : ((bs.take (74 + declaredDataLength bs)).drop 71).take 1 =
      (bs.drop 71).take 1 := take_drop_take bs _ 71 1 (by omega)
  have c6 : ((bs.take (74 + declaredDataLength bs)).drop 74).take
        (declaredDataLength bs) = (bs.drop 74).take (declaredDataLength bs) :=
    take_drop_take bs _ 74 (declaredDataLength bs) (by omega)
  constructor
  · rw [getDataStorageAccountDecoder_of_le bs h]
    rfl
  · rw [getDataStorageAccountDecoder_of_le bs h,
      getDataStorageAccountDecoder_of_le _ (by rw [hdl, hlen])]
    rw [hdl, c1, c2, c3, c4, c5, c6]

/-- Witness for C10: an 80-byte all-zero input (declared data length 0)
decodes, and decoding its 74-byte prefix gives the same result. -/
theorem claim10_decode_ignores_trailing_witness :
    (getDataStorageAccountDecoder (List.replicate 80 0)).isSome = true ∧
    getDataStorageAccountDecoder (List.replicate 80 0) =
      getDataStorageAccountDecoder ((List.replicate 80 0).take
        (74 + declaredDataLength (List.replicate 80 0))) :=
  claim10_decode_ignores_trailing (List.replicate 80 0) (by decide)

end DataStorage
